import Mathlib

/-!
Verification development for `search_group/search_engine.py` (SearchEngine v3.6.0).

Python strings are modelled as `List Char` (`Str`), Python floats as `ℚ`
(all constants involved are decimal literals, and every comparison performed
by the code is exact at these values), and each regular expression used by
the code is hand-compiled into CPS parser combinators whose alternative
order mirrors the Python `re` module's leftmost, greedy-with-backtracking
semantics.  `str.lower()` is modelled by `Char.toLower` (ASCII case folding;
the CJK characters appearing in the patterns are fixed points of both).
-/

abbrev Str := List Char

def lowerStr (s : Str) : Str := s.map Char.toLower

/-- Python `\s` (whitespace class): ASCII whitespace plus the common
unicode spaces appearing in practice (NBSP, ideographic space). -/
def pySpace (c : Char) : Bool :=
  c = ' ' || c = '\t' || c = '\n' || c = '\r' ||
  c = Char.ofNat 11 || c = Char.ofNat 12 ||
  c = Char.ofNat 0xa0 || c = Char.ofNat 0x3000

/-- The class `[-\s]` used throughout the stock-code patterns. -/
def dashSpace (c : Char) : Bool := c = '-' || pySpace c

/-- The class `[:：\s]` of the `代號` patterns. -/
def colonSpaceCls (c : Char) : Bool := c = ':' || c = '：' || pySpace c

/-- The class `[：:]`. -/
def colonCls (c : Char) : Bool := c = ':' || c = '：'

/-- Python `\w` (word character, unicode mode): alphanumerics, underscore,
and CJK ideographs / kana (which Python treats as letters). -/
def isWordChar (c : Char) : Bool :=
  c.isAlphanum || c = '_' || (0x3040 ≤ c.toNat && c.toNat ≤ 0x9fff)

/-- The class `[^\)]`. -/
def notRParen (c : Char) : Bool := !(c = ')')

/-- The class `[^\d]`. -/
def notDigitCls (c : Char) : Bool := !c.isDigit

/-- The class `["\']`. -/
def quoteCls (c : Char) : Bool := c = '"' || c = '\''

/-- `needle` occurs somewhere in `hay` (Python `needle in hay`). -/
def containsSub (needle hay : Str) : Bool := hay.tails.any (fun t => needle.isPrefixOf t)

/-- All (possibly overlapping) occurrence positions of `needle` in `hay`. -/
def occPositions (needle hay : Str) : List Nat :=
  (List.range (hay.length + 1)).filter (fun i => needle.isPrefixOf (hay.drop i))

/-- Index of the leftmost occurrence (Python `hay.find(needle)`, `None` for `-1`). -/
def firstOcc (needle hay : Str) : Option Nat := (occPositions needle hay).head?

/-- Index of the leftmost occurrence at or after `start`
(Python `hay.find(needle, start)`). -/
def firstOccFrom (needle hay : Str) (start : Nat) : Option Nat :=
  ((occPositions needle hay).filter (fun i => start ≤ i)).head?

/-- Non-overlapping occurrence positions, scanning left to right
(Python `re.finditer` on a literal pattern).  An empty needle matches at
every position, as in Python. -/
def finditerPositions (needle hay : Str) : List Nat :=
  if needle.isEmpty then List.range (hay.length + 1)
  else
    ((List.range (hay.length + 1)).foldl
      (fun (acc : List Nat × Nat) i =>
        if i < acc.2 then acc
        else if needle.isPrefixOf (hay.drop i) then (acc.1 ++ [i], i + needle.length)
        else acc)
      ([], 0)).1

/-! ### CPS regex combinators

Each combinator consumes a prefix of the input and passes the remainder to a
continuation; `<|>` encodes the backtracking alternative order of Python's
`re` engine (greedy quantifiers try longer consumption first). -/

def mLit (lit : Str) (s : Str) (k : Str → Option α) : Option α :=
  if lit.isPrefixOf s then k (s.drop lit.length) else none

def mCls (p : Char → Bool) (s : Str) (k : Str → Option α) : Option α :=
  match s with
  | [] => none
  | c :: t => if p c then k t else none

/-- Greedy `p*`: try consuming more characters first, backtracking to fewer. -/
def mStar (p : Char → Bool) : Str → (Str → Option α) → Option α
  | [], k => k []
  | c :: t, k => if p c then (mStar p t k <|> k (c :: t)) else k (c :: t)

/-- Greedy `p+`. -/
def mPlus (p : Char → Bool) (s : Str) (k : Str → Option α) : Option α :=
  mCls p s (fun t => mStar p t k)

/-- Greedy `p?`. -/
def mOpt (p : Char → Bool) (s : Str) (k : Str → Option α) : Option α :=
  (mCls p s k) <|> k s

/-- Greedy `p{0,n}`. -/
def mRep (p : Char → Bool) : Nat → Str → (Str → Option α) → Option α
  | 0, s, k => k s
  | _ + 1, [], k => k []
  | n + 1, c :: t, k => if p c then (mRep p n t k <|> k (c :: t)) else k (c :: t)

/-- `(\d{4})`: capture exactly four digits. -/
def mD4 (s : Str) (k : Str → Str → Option α) : Option α :=
  match s with
  | a :: b :: c :: d :: t =>
    if a.isDigit && b.isDigit && c.isDigit && d.isDigit then k [a, b, c, d] t else none
  | _ => none

/-- `(\d{1,2})`: capture one or two digits, greedily preferring two. -/
def mD12 (s : Str) (k : Str → Str → Option α) : Option α :=
  match s with
  | [] => none
  | a :: rest =>
    if a.isDigit then
      match rest with
      | b :: t => if b.isDigit then (k [a, b] t <|> k [a] rest) else k [a] rest
      | [] => k [a] []
    else none

/-- Leftmost match of an anchored matcher (Python `re.search`). -/
def searchO (m : Str → Option α) (s : Str) : Option α := s.tails.findSome? m

/-- The tails of a string, each paired with the character immediately
preceding it (`none` at the start of the string); used for `\b` handling. -/
def tailsPAux (p : Char) : Str → List (Option Char × Str)
  | [] => [(some p, [])]
  | c :: t => (some p, c :: t) :: tailsPAux c t

def tailsP : Str → List (Option Char × Str)
  | [] => [(none, [])]
  | c :: t => (none, c :: t) :: tailsPAux c t

/-- Existence of a match for a matcher that inspects the preceding character
(patterns that begin with `\b` before a word character). -/
def searchPrev (m : Option Char → Str → Option Unit) (s : Str) : Bool :=
  (tailsP s).any (fun pt => (m pt.1 pt.2).isSome)

/-- `\b` immediately before a word character: start of string or preceding
character is not a word character. -/
def bdryBefore (prev : Option Char) : Bool :=
  match prev with
  | none => true
  | some c => !isWordChar c

/-- `\b` at the end of the pattern, after a word character: end of string or
next character is not a word character. -/
def kEndBdry : Str → Option Unit
  | [] => some ()
  | c :: _ => if isWordChar c then none else some ()

def kAny : Str → Option Unit := fun _ => some ()

/-- Repeatedly apply an anchored matcher, collecting the captures of the
non-overlapping matches left to right (Python `re.findall`).  The fuel
`s.length + 1` suffices since every pattern used consumes at least one
character per match. -/
def scanAllF (m : Str → Option (α × Str)) : Nat → Str → List α
  | 0, _ => []
  | fuel + 1, s =>
    match m s with
    | some (a, rest) => a :: scanAllF m fuel rest
    | none =>
      match s with
      | [] => []
      | _ :: t => scanAllF m fuel t

def scanAll (m : Str → Option (α × Str)) (s : Str) : List α := scanAllF m (s.length + 1) s

/-! ### ContentValidator (`_validate_content`), Layer 1: title -/

/-- `re.search(r'<title>(.*?)</title>', content, re.IGNORECASE | re.DOTALL)`,
applied to the lowercased content: the capture lies between the leftmost
`<title>` and the next `</title>` after it. -/
def extractTitleTag (cl : Str) : Option Str :=
  match firstOcc "<title>".toList cl with
  | none => none
  | some i =>
    let rest := cl.drop (i + 7)
    match firstOcc "</title>".toList rest with
    | none => none
    | some j => some (rest.take j)

/-- The non-greedy `(.*?)["\']` tail of the og:title pattern: capture up to
the first quote; `.` does not match a newline (no DOTALL). -/
def captureTillQuote : Str → Option Str
  | [] => none
  | c :: t =>
    if quoteCls c then some []
    else if c = '\n' then none
    else (captureTillQuote t).map (fun g => c :: g)

/-- `re.search(r'<meta\s+property=["\']og:title["\']\s+content=["\'](.*?)["\']',
content, re.IGNORECASE)` on the lowercased content. -/
def metaOgTitle (cl : Str) : Option Str :=
  searchO (fun s0 =>
    mLit "<meta".toList s0 fun s1 =>
    mPlus pySpace s1 fun s2 =>
    mLit "property=".toList s2 fun s3 =>
    mCls quoteCls s3 fun s4 =>
    mLit "og:title".toList s4 fun s5 =>
    mCls quoteCls s5 fun s6 =>
    mPlus pySpace s6 fun s7 =>
    mLit "content=".toList s7 fun s8 =>
    mCls quoteCls s8 fun s9 =>
    captureTillQuote s9) cl

/-- The title string used by Layer 1: the og:title meta capture if present
(it overwrites the `<title>` capture), else the `<title>` capture, else
empty. -/
def titleText (content : Str) : Str :=
  let cl := lowerStr content
  match metaOgTitle cl with
  | some t => t
  | none =>
    match extractTitleTag cl with
    | some t => t
    | none => []

/-- One anchored match of `\((\d{4})[-\s]*tw\)`, capturing the code. -/
def titleCodeM (s : Str) : Option (Str × Str) :=
  mLit ['('] s fun s1 =>
  mD4 s1 fun g s2 =>
  mStar dashSpace s2 fun s3 =>
  mLit "tw)".toList s3 fun s4 => some (g, s4)

/-- `re.findall(r'\((\d{4})[-\s]*tw\)', title_text)`. -/
def findTitleCodes (title : Str) : List Str := scanAll titleCodeM title

/-- Layer 1 veto: the title contains at least one `(dddd-tw)` code and none
of the codes equals the target symbol. -/
def titleVeto (content symbol : Str) : Bool :=
  let codes := findTitleCodes (titleText content)
  !codes.isEmpty && !codes.contains symbol

/-! ### Layer 2: combined patterns -/

def combined1 (cl symbol nameL : Str) : Bool :=
  (searchO (fun s0 =>
    mLit nameL s0 fun s1 =>
    mStar notRParen s1 fun s2 =>
    mLit ['('] s2 fun s3 =>
    mLit symbol s3 fun s4 =>
    mStar dashSpace s4 fun s5 =>
    mLit "tw)".toList s5 kAny) cl).isSome

def combined2 (cl symbol nameL : Str) : Bool :=
  (searchO (fun s0 =>
    mLit ['('] s0 fun s1 =>
    mLit symbol s1 fun s2 =>
    mStar dashSpace s2 fun s3 =>
    mLit "tw)".toList s3 fun s4 =>
    mStar notRParen s4 fun s5 =>
    mLit nameL s5 kAny) cl).isSome

def combined3 (cl symbol nameL : Str) : Bool :=
  (searchO (fun s0 =>
    mLit symbol s0 fun s1 =>
    mStar dashSpace s1 fun s2 =>
    mLit "tw".toList s2 fun s3 =>
    mStar notRParen s3 fun s4 =>
    mLit nameL s4 kAny) cl).isSome

def combined4 (cl symbol nameL : Str) : Bool :=
  (searchO (fun s0 =>
    mLit nameL s0 fun s1 =>
    mRep notDigitCls 20 s1 fun s2 =>
    mLit symbol s2 fun s3 =>
    mStar dashSpace s3 fun s4 =>
    mLit "tw".toList s4 kAny) cl).isSome

def combined5 (cl symbol nameL : Str) : Bool :=
  (searchO (fun s0 =>
    mLit "代號".toList s0 fun s1 =>
    mStar colonSpaceCls s1 fun s2 =>
    mLit symbol s2 fun s3 =>
    mStar notRParen s3 fun s4 =>
    mLit nameL s4 kAny) cl).isSome

def hasCombinedMatch (cl symbol nameL : Str) : Bool :=
  combined1 cl symbol nameL || combined2 cl symbol nameL || combined3 cl symbol nameL ||
  combined4 cl symbol nameL || combined5 cl symbol nameL

/-! ### Layer 3: proximity -/

/-- The absolute distances `abs(sym_pos - name_pos)` over all pairs of
occurrence positions. -/
def proxDistancesAll (cl symbol nameL : Str) : List Nat :=
  (finditerPositions symbol cl).foldr
    (fun sp acc => (finditerPositions nameL cl).map (fun np => max sp np - min sp np) ++ acc) []

/-- The distances within the proximity threshold of 200 characters. -/
def closeDistances (cl symbol nameL : Str) : List Nat :=
  (proxDistancesAll cl symbol nameL).filter (fun d => d ≤ 200)

def hasProximity (cl symbol nameL : Str) : Bool := !(closeDistances cl symbol nameL).isEmpty

/-- `min_distance` of the proximity layer; 201 stands for the initial
`float('inf')` and is never exposed since the value is only used when
`hasProximity` holds (every close distance is at most 200). -/
def minProxDistance (cl symbol nameL : Str) : Nat :=
  (closeDistances cl symbol nameL).foldr min 201

/-! ### Layer 4: context-aware fallback -/

def symbolCtx1 (cl symbol : Str) : Bool :=
  searchPrev (fun prev s0 =>
    if bdryBefore prev then
      mLit symbol s0 fun s1 =>
      mStar dashSpace s1 fun s2 =>
      mLit "tw".toList s2 kEndBdry
    else none) cl

def symbolCtx2 (cl symbol : Str) : Bool :=
  (searchO (fun s0 =>
    mLit symbol s0 fun s1 =>
    mStar dashSpace s1 fun s2 =>
    mLit "台股".toList s2 kAny) cl).isSome

def symbolCtx3 (cl symbol : Str) : Bool :=
  (searchO (fun s0 =>
    mLit ['('] s0 fun s1 =>
    mLit symbol s1 fun s2 =>
    mStar dashSpace s2 fun s3 =>
    mLit "tw)".toList s3 kAny) cl).isSome

def symbolCtx4 (cl symbol : Str) : Bool :=
  (searchO (fun s0 =>
    mLit "代號".toList s0 fun s1 =>
    mStar colonSpaceCls s1 fun s2 =>
    mLit symbol s2 kEndBdry) cl).isSome

def symbolCtx5 (cl symbol : Str) : Bool :=
  (searchO (fun s0 =>
    mLit symbol s0 fun s1 =>
    mPlus dashSpace s1 fun s2 =>
    mCls notDigitCls s2 kAny) cl).isSome

/-- The symbol occurs in a proper stock-code context (any of the five
`symbol_contexts` patterns matches). -/
def symbolInContext (cl symbol : Str) : Bool :=
  symbolCtx1 cl symbol || symbolCtx2 cl symbol || symbolCtx3 cl symbol ||
  symbolCtx4 cl symbol || symbolCtx5 cl symbol

def weiShi (c : Char) : Bool := c = '為' || c = '是'

def fpPat1 (cl symbol : Str) : Bool :=
  (searchO (fun s0 =>
    mLit "目標價".toList s0 fun s1 =>
    mCls weiShi s1 fun s2 =>
    mStar pySpace s2 fun s3 =>
    mLit symbol s3 fun s4 =>
    mLit "元".toList s4 kAny) cl).isSome

def fpPat2 (cl symbol : Str) : Bool :=
  (searchO (fun s0 =>
    mLit "目標價".toList s0 fun s1 =>
    mCls colonCls s1 fun s2 =>
    mStar pySpace s2 fun s3 =>
    mLit symbol s3 fun s4 =>
    mLit "元".toList s4 kAny) cl).isSome

def fpPat3 (cl symbol : Str) : Bool :=
  (searchO (fun s0 =>
    mLit "預估目標價".toList s0 fun s1 =>
    mOpt weiShi s1 fun s2 =>
    mStar pySpace s2 fun s3 =>
    mLit symbol s3 fun s4 =>
    mLit "元".toList s4 kAny) cl).isSome

def fpPat4 (cl symbol : Str) : Bool :=
  (searchO (fun s0 =>
    mLit symbol s0 fun s1 =>
    mStar pySpace s1 fun s2 =>
    mLit "元".toList s2 fun s3 =>
    mStar pySpace s3 fun s4 =>
    mLit "目標價".toList s4 kAny) cl).isSome

def fpPat5 (cl symbol : Str) : Bool :=
  (searchO (fun s0 =>
    mLit "升至".toList s0 fun s1 =>
    mStar pySpace s1 fun s2 =>
    mLit symbol s2 fun s3 =>
    mLit "元".toList s3 kAny) cl).isSome

def fpPat6 (cl symbol : Str) : Bool :=
  (searchO (fun s0 =>
    mLit "調升至".toList s0 fun s1 =>
    mStar pySpace s1 fun s2 =>
    mLit symbol s2 fun s3 =>
    mLit "元".toList s3 kAny) cl).isSome

/-- Any of the six `false_positive_patterns` (symbol used as a price) matches. -/
def priceFalsePositive (cl symbol : Str) : Bool :=
  fpPat1 cl symbol || fpPat2 cl symbol || fpPat3 cl symbol ||
  fpPat4 cl symbol || fpPat5 cl symbol || fpPat6 cl symbol

/-- Python `name_lower.split()`: split on whitespace runs, dropping empties. -/
def pySplitAux : Str → Str → List Str
  | [], cur => if cur.isEmpty then [] else [cur.reverse]
  | c :: t, cur =>
    if pySpace c then (if cur.isEmpty then pySplitAux t [] else cur.reverse :: pySplitAux t [])
    else pySplitAux t (c :: cur)

def pySplit (s : Str) : List Str := pySplitAux s []

/-- Partial company-name matching: at least `max(1, len(words) // 2)` of the
words of length > 1 occur in the content. -/
def nameFound (cl nameL : Str) : Bool :=
  let ws := pySplit nameL
  let cnt := (ws.filter (fun w => 1 < w.length && containsSub w cl)).length
  decide (max 1 (ws.length / 2) ≤ cnt)

/-! ### The validator -/

inductive Layer where
  | title_check
  | combined_pattern
  | proximity_check
  | price_detection
  | fallback
deriving DecidableEq, Repr

/-- The validation verdict.  The human-readable `reason` string is omitted
(no claim constrains it); dictionary keys absent from a given Python verdict
are modelled as `false` (`symbol_in_context`) and `none`
(`proximity_distance`).  The `error` layer of the Python `except` handler is
unreachable in this pure model. -/
structure Verdict where
  is_valid : Bool
  confidence : ℚ
  symbol_found : Bool
  symbol_in_context : Bool
  name_found : Bool
  false_positive : Bool
  validation_layer : Layer
  proximity_distance : Option Nat
deriving DecidableEq, Repr

/-- `SearchEngine._validate_content` with validation enabled (the
constructor sets `enable_content_validation = True`). -/
def _validate_content (content symbol name : Str) : Verdict :=
  let contentLower := lowerStr content
  let symbolLower := lowerStr symbol
  let nameLower := lowerStr name
  if titleVeto content symbol then
    { is_valid := false, confidence := 0, symbol_found := false, symbol_in_context := false,
      name_found := false, false_positive := true, validation_layer := .title_check,
      proximity_distance := none }
  else if hasCombinedMatch contentLower symbol nameLower then
    { is_valid := true, confidence := 12/10, symbol_found := true, symbol_in_context := true,
      name_found := true, false_positive := false, validation_layer := .combined_pattern,
      proximity_distance := none }
  else if hasProximity contentLower symbol nameLower then
    let md := minProxDistance contentLower symbol nameLower
    { is_valid := true, confidence := 1 - ((md : ℚ) / 200) * (2/10), symbol_found := true,
      symbol_in_context := true, name_found := true, false_positive := false,
      validation_layer := .proximity_check, proximity_distance := some md }
  else if priceFalsePositive contentLower symbol then
    { is_valid := false, confidence := 0, symbol_found := false, symbol_in_context := false,
      name_found := false, false_positive := true, validation_layer := .price_detection,
      proximity_distance := none }
  else
    let sic := symbolInContext contentLower symbol
    let ssub := containsSub symbolLower contentLower
    let nf := nameFound contentLower nameLower
    let conf : ℚ := (if sic then 1/2 else if ssub then 1/5 else 0) + (if nf then 3/10 else 0)
    let ok := (sic || ssub) && nf && decide ((7:ℚ)/10 ≤ conf)
    { is_valid := ok, confidence := conf, symbol_found := sic || ssub, symbol_in_context := sic,
      name_found := nf, false_positive := !ok, validation_layer := .fallback,
      proximity_distance := none }

/-! ### Theorems about the validator -/

theorem foldr_min_le_of_all_le {l : List Nat} {a : Nat} (h : ∀ x ∈ l, x ≤ a) (hne : l ≠ []) :
    l.foldr min (a + 1) ≤ a := by
  induction l with
  | nil => exact absurd rfl hne
  | cons x t ih =>
    match t, ih with
    | [], _ => simpa using h x (by simp)
    | y :: t', ih =>
      have hr := ih (fun z hz => h z (by simp [List.mem_cons] at hz ⊢; tauto)) (by simp)
      exact le_trans (min_le_right _ _) hr

theorem minProxDistance_le_200 (cl symbol nameL : Str)
    (h : hasProximity cl symbol nameL = true) :
    minProxDistance cl symbol nameL ≤ 200 := by
  unfold minProxDistance
  apply foldr_min_le_of_all_le
  · intro x hx
    have := (List.mem_filter.mp hx).2
    simpa using this
  · intro hcon
    unfold hasProximity at h
    simp [hcon] at h

/-- C1.  If no layer before the fallback decides, the verdict's confidence is
0.5 for symbol-in-context (else 0.2 for a bare substring occurrence, else 0)
plus 0.3 when the name is found, and the verdict is valid iff
(symbol-in-context or substring) and name found and confidence ≥ 0.7. -/
theorem fallback_confidence_and_validity (content symbol name : Str)
    (h1 : titleVeto content symbol = false)
    (h2 : hasCombinedMatch (lowerStr content) symbol (lowerStr name) = false)
    (h3 : hasProximity (lowerStr content) symbol (lowerStr name) = false)
    (h4 : priceFalsePositive (lowerStr content) symbol = false) :
    ((_validate_content content symbol name).confidence =
      (if symbolInContext (lowerStr content) symbol then (1:ℚ)/2
       else if containsSub (lowerStr symbol) (lowerStr content) then (1:ℚ)/5 else 0)
      + (if nameFound (lowerStr content) (lowerStr name) then (3:ℚ)/10 else 0))
    ∧ ((_validate_content content symbol name).is_valid = true ↔
      ((symbolInContext (lowerStr content) symbol = true ∨
        containsSub (lowerStr symbol) (lowerStr content) = true)
       ∧ nameFound (lowerStr content) (lowerStr name) = true
       ∧ (7:ℚ)/10 ≤ (_validate_content content symbol name).confidence)) := by
  cases hsic : symbolInContext (lowerStr content) symbol <;>
    cases hsub : containsSub (lowerStr symbol) (lowerStr content) <;>
      cases hnf : nameFound (lowerStr content) (lowerStr name) <;>
        simp_all [_validate_content, h1, h2, h3, h4]

/-- C1 witness. -/
theorem fallback_confidence_and_validity_w :
    (_validate_content "<p>2330-tw report</p>".toList "2330".toList "台積電".toList).confidence =
      (if symbolInContext (lowerStr "<p>2330-tw report</p>".toList) "2330".toList then (1:ℚ)/2
       else if containsSub (lowerStr "2330".toList) (lowerStr "<p>2330-tw report</p>".toList)
         then (1:ℚ)/5 else 0)
      + (if nameFound (lowerStr "<p>2330-tw report</p>".toList) (lowerStr "台積電".toList)
         then (3:ℚ)/10 else 0) :=
  (fallback_confidence_and_validity _ _ _ (by decide) (by decide) (by decide) (by decide)).1

/-- C2.  If Layers 1 and 2 do not decide and some symbol occurrence lies
within 200 characters of some name occurrence, the verdict is valid with
layer `proximity_check`, confidence `1 - (minDistance/200)*0.2`, which lies
in [0.8, 1], and the minimal distance recorded. -/
theorem proximity_verdict (content symbol name : Str)
    (h1 : titleVeto content symbol = false)
    (h2 : hasCombinedMatch (lowerStr content) symbol (lowerStr name) = false)
    (h3 : hasProximity (lowerStr content) symbol (lowerStr name) = true) :
    (_validate_content content symbol name).is_valid = true
    ∧ (_validate_content content symbol name).validation_layer = Layer.proximity_check
    ∧ (_validate_content content symbol name).confidence =
        1 - ((minProxDistance (lowerStr content) symbol (lowerStr name) : ℚ) / 200) * (2/10)
    ∧ (8:ℚ)/10 ≤ (_validate_content content symbol name).confidence
    ∧ (_validate_content content symbol name).confidence ≤ 1
    ∧ (_validate_content content symbol name).proximity_distance =
        some (minProxDistance (lowerStr content) symbol (lowerStr name)) := by
  have hd : ((minProxDistance (lowerStr content) symbol (lowerStr name) : ℚ)) ≤ 200 := by
    exact_mod_cast minProxDistance_le_200 _ _ _ h3
  have hd0 : (0:ℚ) ≤ ((minProxDistance (lowerStr content) symbol (lowerStr name) : ℚ)) := by
    positivity
  refine ⟨?_, ?_, ?_, ?_, ?_, ?_⟩ <;>
    simp [_validate_content, h1, h2, h3] <;> nlinarith

/-- C2 witness. -/
theorem proximity_verdict_w :
    (_validate_content "2330 hello world abc 台積電 xyz".toList "2330".toList "台積電".toList).is_valid
      = true :=
  (proximity_verdict _ _ _ (by decide) (by decide) (by decide)).1

/-- C3.  If the extracted title (og:title meta winning over the title tag)
contains at least one `(dddd-TW)` company code and none equals the target
symbol, the verdict is immediately invalid with layer `title_check`,
regardless of the page body. -/
theorem title_veto_rejects (content symbol name : Str)
    (hne : findTitleCodes (titleText content) ≠ [])
    (hnotin : symbol ∉ findTitleCodes (titleText content)) :
    (_validate_content content symbol name).is_valid = false
    ∧ (_validate_content content symbol name).validation_layer = Layer.title_check := by
  have hv : titleVeto content symbol = true := by
    unfold titleVeto
    simp only [Bool.and_eq_true, Bool.not_eq_true']
    constructor
    · simpa [List.isEmpty_iff] using hne
    · simpa [List.contains, List.elem_eq_mem, decide_eq_false_iff_not] using hnotin
  simp [_validate_content, hv]

/-- C3 witness. -/
theorem title_veto_rejects_w :
    (_validate_content "<title>foo (2330-TW) bar</title> 鴻海 2317 body".toList
        "2317".toList "鴻海".toList).is_valid = false
    ∧ (_validate_content "<title>foo (2330-TW) bar</title> 鴻海 2317 body".toList
        "2317".toList "鴻海".toList).validation_layer = Layer.title_check :=
  title_veto_rejects _ _ _ (by decide) (by decide)

/-- C10.  Every fallback verdict has `false_positive = ¬ is_valid` (so every
fallback rejection is marked as a false positive even without a price-pattern
match), and every title-check rejection carries `false_positive = true`. -/
theorem false_positive_field_invariant (c s n : Str) :
    ((_validate_content c s n).validation_layer = Layer.fallback →
      (_validate_content c s n).false_positive = !(_validate_content c s n).is_valid)
    ∧ ((_validate_content c s n).validation_layer = Layer.title_check →
      (_validate_content c s n).false_positive = true) := by
  cases h1 : titleVeto c s <;>
    cases h2 : hasCombinedMatch (lowerStr c) s (lowerStr n) <;>
      cases h3 : hasProximity (lowerStr c) s (lowerStr n) <;>
        cases h4 : priceFalsePositive (lowerStr c) s <;>
          simp [_validate_content, h1, h2, h3, h4]

/-- C10 witness. -/
theorem false_positive_field_invariant_w :
    (_validate_content "<p>2330-tw report</p>".toList "2330".toList "台積電".toList).false_positive
      = !(_validate_content "<p>2330-tw report</p>".toList "2330".toList "台積電".toList).is_valid
    ∧ (_validate_content "<title>(2330-tw)</title>".toList "2317".toList "鴻海".toList).false_positive
      = true :=
  ⟨(false_positive_field_invariant _ _ _).1 (by decide),
   (false_positive_field_invariant _ _ _).2 (by decide)⟩

/-! ### DateExtractor (`_extract_content_date_for_metadata`)

`datetime.now().year` — the only impure input of the confidence
computation — is passed explicitly as `nowYear`. -/

/-- Python `str.strip()` (both ends). -/
def pyStrip (s : Str) : Str := ((s.dropWhile pySpace).reverse.dropWhile pySpace).reverse

/-- `_get_content_without_yaml`: drop a leading `---` YAML frontmatter block,
bounded by the next `---` found from index 3 (Python `content.find('---', 3)`). -/
def _get_content_without_yaml (content : Str) : Str :=
  if "---".toList.isPrefixOf content then
    match firstOccFrom "---".toList content 3 with
    | some e => pyStrip (content.drop (e + 3))
    | none => content
  else content

/-- Value of a digit string. -/
def digitsToNat (s : Str) : Nat := s.foldl (fun a c => a * 10 + (c.toNat - 48)) 0

/-- Python `int(str)` restricted to an optional sign followed by digits
(the inputs arising here are regex `\d` groups). -/
def pyInt? (s : Str) : Option Int :=
  match s with
  | [] => none
  | '-' :: t => if !t.isEmpty && t.all Char.isDigit then some (-(digitsToNat t : Int)) else none
  | '+' :: t => if !t.isEmpty && t.all Char.isDigit then some ((digitsToNat t : Int)) else none
  | _ => if s.all Char.isDigit then some ((digitsToNat s : Int)) else none

def isLeapYear (y : Int) : Bool := y % 4 = 0 && (y % 100 ≠ 0 || y % 400 = 0)

/-- Number of days of a month in the (proleptic) Gregorian calendar, the
validity rule enforced by Python's `datetime(y, m, d)` constructor. -/
def daysInMonth (y m : Int) : Int :=
  if m = 2 then (if isLeapYear y then 29 else 28)
  else if m = 4 ∨ m = 6 ∨ m = 9 ∨ m = 11 then 30
  else 31

/-- `_validate_date_components`: range checks followed by `datetime(y, m, d)`
construction (whose failure is caught and returns `False`). -/
def _validate_date_components (year month day : Str) : Bool :=
  match pyInt? year, pyInt? month, pyInt? day with
  | some y, some m, some d =>
    if ¬(2020 ≤ y ∧ y ≤ 2030) then false
    else if ¬(1 ≤ m ∧ m ≤ 12) then false
    else if ¬(1 ≤ d ∧ d ≤ 31) then false
    else decide (d ≤ daysInMonth y m)
  | _, _, _ => false

/-- `f"{n:02d}"` for the values arising from 1–2 digit groups. -/
def pad2 (n : Nat) : Str := if n < 10 then '0' :: (toString n).toList else (toString n).toList

/-- `f"{year}/{int(month):02d}/{int(day):02d}"`. -/
def formatDate (y mo d : Str) : Str :=
  y ++ "/".toList ++ pad2 (digitsToNat mo) ++ "/".toList ++ pad2 (digitsToNat d)

/-- `(\d{4})sep(\d{1,2})sep(\d{1,2})` with a fixed separator character. -/
def mDateSep (sep : Char) (s : Str) (k : (Str × Str × Str) → Str → Option α) : Option α :=
  mD4 s fun y s1 =>
  mLit [sep] s1 fun s2 =>
  mD12 s2 fun mo s3 =>
  mLit [sep] s3 fun s4 =>
  mD12 s4 fun d s5 => k (y, mo, d) s5

/-- `(\d{4})年(\d{1,2})月(\d{1,2})日`. -/
def mDateCJK (s : Str) (k : (Str × Str × Str) → Str → Option α) : Option α :=
  mD4 s fun y s1 =>
  mLit ['年'] s1 fun s2 =>
  mD12 s2 fun mo s3 =>
  mLit ['月'] s3 fun s4 =>
  mD12 s4 fun d s5 =>
  mLit ['日'] s5 fun s6 => k (y, mo, d) s6

/-- `\s+\d{1,2}:\d{1,2}`. -/
def mTimeHM (s : Str) (k : Str → Option α) : Option α :=
  mPlus pySpace s fun s1 =>
  mD12 s1 fun _ s2 =>
  mLit [':'] s2 fun s3 =>
  mD12 s3 fun _ s4 => k s4

/-- `\s+\d{1,2}:\d{1,2}:\d{1,2}`. -/
def mTimeHMS (s : Str) (k : Str → Option α) : Option α :=
  mPlus pySpace s fun s1 =>
  mD12 s1 fun _ s2 =>
  mLit [':'] s2 fun s3 =>
  mD12 s3 fun _ s4 =>
  mLit [':'] s4 fun s5 =>
  mD12 s5 fun _ s6 => k s6

/-! The six `meta_patterns` (searched with `re.IGNORECASE`, hence matched on
the lowercased content — the captured groups are digits, unaffected). -/

def metaM0 (s : Str) : Option ((Str × Str × Str) × Str) :=
  mLit "property=".toList s fun s1 =>
  mCls quoteCls s1 fun s2 =>
  mLit "article:published_time".toList s2 fun s3 =>
  mCls quoteCls s3 fun s4 =>
  mPlus pySpace s4 fun s5 =>
  mLit "content=".toList s5 fun s6 =>
  mCls quoteCls s6 fun s7 =>
  mDateSep '/' s7 fun g s8 => some (g, s8)

def metaM1 (s : Str) : Option ((Str × Str × Str) × Str) :=
  mLit "property=".toList s fun s1 =>
  mCls quoteCls s1 fun s2 =>
  mLit "article:published_time".toList s2 fun s3 =>
  mCls quoteCls s3 fun s4 =>
  mPlus pySpace s4 fun s5 =>
  mLit "content=".toList s5 fun s6 =>
  mCls quoteCls s6 fun s7 =>
  mDateSep '-' s7 fun g s8 => some (g, s8)

def metaM2 (s : Str) : Option ((Str × Str × Str) × Str) :=
  mLit "name=".toList s fun s1 =>
  mCls quoteCls s1 fun s2 =>
  mLit "pubdate".toList s2 fun s3 =>
  mCls quoteCls s3 fun s4 =>
  mPlus pySpace s4 fun s5 =>
  mLit "content=".toList s5 fun s6 =>
  mCls quoteCls s6 fun s7 =>
  mDateSep '-' s7 fun g s8 => some (g, s8)

def mDatePublishedHead (s : Str) (k : Str → Option α) : Option α :=
  mLit "\"datepublished\"".toList s fun s1 =>
  mStar pySpace s1 fun s2 =>
  mLit [':'] s2 fun s3 =>
  mStar pySpace s3 fun s4 =>
  mCls quoteCls s4 k

def metaM3 (s : Str) : Option ((Str × Str × Str) × Str) :=
  mDatePublishedHead s fun s1 => mDateSep '-' s1 fun g s2 => some (g, s2)

def metaM4 (s : Str) : Option ((Str × Str × Str) × Str) :=
  mDatePublishedHead s fun s1 => mDateSep '/' s1 fun g s2 => some (g, s2)

def metaM5 (s : Str) : Option ((Str × Str × Str) × Str) :=
  mDatePublishedHead s fun s1 => mDateCJK s1 fun g s2 => some (g, s2)

def metaMatchers : List (Str → Option ((Str × Str × Str) × Str)) :=
  [metaM0, metaM1, metaM2, metaM3, metaM4, metaM5]

/-- The priority pass: for each meta pattern in order, take its leftmost
match (`re.search`); if that match's components validate, return the
formatted date; otherwise move to the next pattern. -/
def metaPass (actual : Str) : Option Str :=
  let cl := lowerStr actual
  metaMatchers.findSome? (fun m =>
    match searchO m cl with
    | some (g, _) =>
      if _validate_date_components g.1 g.2.1 g.2.2 then some (formatDate g.1 g.2.1 g.2.2)
      else none
    | none => none)

/-! The twelve `date_patterns` of the cascade pass. -/

def weekCls (c : Char) : Bool := c = '週' || c = '周'

def dayNameCls (c : Char) : Bool :=
  c = '一' || c = '二' || c = '三' || c = '四' || c = '五' || c = '六' || c = '日' || c = '天'

def amPmCls (c : Char) : Bool := c = '上' || c = '下'

def dpat0 (s : Str) : Option ((Str × Str × Str) × Str) :=
  mLit ['*'] s fun s1 =>
  mStar pySpace s1 fun s2 =>
  mDateSep '-' s2 fun g s3 =>
  mTimeHM s3 fun s4 => some (g, s4)

def dpat1 (s : Str) : Option ((Str × Str × Str) × Str) :=
  mLit ['*'] s fun s1 =>
  mStar pySpace s1 fun s2 =>
  mLit "更新".toList s2 fun s3 =>
  mCls colonCls s3 fun s4 =>
  mStar pySpace s4 fun s5 =>
  mDateSep '-' s5 fun g s6 =>
  mTimeHM s6 fun s7 => some (g, s7)

def dpat2 (s : Str) : Option ((Str × Str × Str) × Str) :=
  mLit "更新".toList s fun s1 =>
  mCls colonCls s1 fun s2 =>
  mStar pySpace s2 fun s3 =>
  mDateSep '-' s3 fun g s4 =>
  mTimeHM s4 fun s5 => some (g, s5)

def dpat3 (s : Str) : Option ((Str × Str × Str) × Str) :=
  mLit "鉅亨網新聞中心".toList s fun s1 =>
  mStar pySpace s1 fun s2 =>
  mOpt (fun c => c = '\n') s2 fun s3 =>
  mStar pySpace s3 fun s4 =>
  mDateSep '-' s4 fun g s5 =>
  mTimeHM s5 fun s6 => some (g, s6)

def dpat4 (s : Str) : Option ((Str × Str × Str) × Str) :=
  mLit "鉅亨網新聞中心".toList s fun s1 =>
  mStar pySpace s1 fun s2 =>
  mDateSep '-' s2 fun g s3 =>
  mTimeHM s3 fun s4 => some (g, s4)

def dpat5 (s : Str) : Option ((Str × Str × Str) × Str) :=
  mDateCJK s fun g s1 =>
  mOpt weekCls s1 fun s2 =>
  mOpt dayNameCls s2 fun s3 =>
  mStar pySpace s3 fun s4 =>
  mCls amPmCls s4 fun s5 =>
  mLit ['午'] s5 fun s6 =>
  mStar pySpace s6 fun s7 =>
  mD12 s7 fun _ s8 =>
  mLit [':'] s8 fun s9 =>
  mD12 s9 fun _ s10 => some (g, s10)

def dpat6 (s : Str) : Option ((Str × Str × Str) × Str) :=
  mDateCJK s fun g s1 =>
  mOpt weekCls s1 fun s2 =>
  mOpt dayNameCls s2 fun s3 => some (g, s3)

def dpat7 (s : Str) : Option ((Str × Str × Str) × Str) :=
  mDateCJK s fun g s1 => some (g, s1)

def dpat8 (s : Str) : Option ((Str × Str × Str) × Str) :=
  mDateSep '-' s fun g s1 => mTimeHMS s1 fun s2 => some (g, s2)

def dpat9 (s : Str) : Option ((Str × Str × Str) × Str) :=
  mDateSep '-' s fun g s1 => mTimeHM s1 fun s2 => some (g, s2)

def dpat10 (s : Str) : Option ((Str × Str × Str) × Str) :=
  mDateSep '-' s fun g s1 => some (g, s1)

def dpat11 (s : Str) : Option ((Str × Str × Str) × Str) :=
  mDateSep '/' s fun g s1 => some (g, s1)

def datePatterns : List (Str → Option ((Str × Str × Str) × Str)) :=
  [dpat0, dpat1, dpat2, dpat3, dpat4, dpat5, dpat6, dpat7, dpat8, dpat9, dpat10, dpat11]

/-! ### `_calculate_date_confidence` -/

/-- Pattern-priority bonus: earlier patterns are presumed more reliable. -/
def patternPriorityBonus (i : Nat) : ℚ :=
  if i = 0 then 6 else if i = 1 then 11/2 else if i = 2 then 5 else if i ≤ 6 then 4 else 2

/-- `''.join(match)`: the captured groups concatenated without separators. -/
def joinedGroups (g : Str × Str × Str) : Str := g.1 ++ g.2.1 ++ g.2.2

/-- Positional bonus.  The code looks up `content.find(''.join(match))` —
the position of the joined groups, not of the matched text. -/
def positionalBonus (g : Str × Str × Str) (content : Str) : ℚ :=
  match firstOcc (joinedGroups g) content with
  | none => 0
  | some p =>
    if (p : ℚ) < (content.length : ℚ) * (1/10) then 2
    else if (p : ℚ) < (content.length : ℚ) * (3/10) then 1
    else 0

/-- Recency bonus from the year group against `datetime.now().year`. -/
def recencyBonus (g : Str × Str × Str) (nowYear : Nat) : ℚ :=
  if digitsToNat g.1 = nowYear then 3/2
  else if digitsToNat g.1 + 1 = nowYear then 1
  else 0

/-- Trusted-source bonus from marker substrings of the content. -/
def sourceBonus (content : Str) : ℚ :=
  if containsSub "cnyes.com".toList content then 3/2
  else if containsSub "鉅亨網".toList content then 1
  else 0

def _calculate_date_confidence (patternIndex : Nat) (g : Str × Str × Str)
    (content : Str) (nowYear : Nat) : ℚ :=
  5 + patternPriorityBonus patternIndex + positionalBonus g content
    + recencyBonus g nowYear + sourceBonus content

structure DateCand where
  date : Str
  pattern_index : Nat
  confidence : ℚ
deriving DecidableEq, Repr

/-- The cascade pass candidate list, in discovery order: patterns in list
order, matches of one pattern in textual order, invalid components skipped. -/
def dateCands (actual : Str) (nowYear : Nat) : List DateCand :=
  (datePatterns.enum.map (fun ip =>
    (scanAll ip.2 actual).filterMap (fun g =>
      if _validate_date_components g.1 g.2.1 g.2.2 then
        some { date := formatDate g.1 g.2.1 g.2.2, pattern_index := ip.1,
               confidence := _calculate_date_confidence ip.1 g actual nowYear }
      else none))).flatten

/-- Head of the stable descending sort, computed directly: the earliest
candidate of maximal confidence. -/
def bestCand : List DateCand → Option DateCand
  | [] => none
  | c :: t =>
    match bestCand t with
    | none => some c
    | some b => some (if b.confidence ≤ c.confidence then c else b)

/-- `_extract_content_date_for_metadata`: strip YAML, run the priority pass,
else sort the cascade candidates by confidence descending (Python's sort is
stable) and return the first, else the empty string. -/
def _extract_content_date_for_metadata (content : Str) (nowYear : Nat) : Str :=
  let actual := _get_content_without_yaml content
  match metaPass actual with
  | some d => d
  | none =>
    let found := dateCands actual nowYear
    if found.isEmpty then []
    else
      match (found.insertionSort (fun a b => b.confidence ≤ a.confidence)).head? with
      | some c => c.date
      | none => []

/-! ### Theorems about the date extractor -/

/-- C4.  A parsed (year, month, day) triple is accepted exactly when the
year lies in [2020, 2030], the month in [1, 12], the day in [1, 31], and the
day does not exceed the Gregorian length of that month. -/
theorem date_components_characterisation (ys ms ds : Str) (y m d : Int)
    (hy : pyInt? ys = some y) (hm : pyInt? ms = some m) (hd : pyInt? ds = some d) :
    (_validate_date_components ys ms ds = true ↔
      (2020 ≤ y ∧ y ≤ 2030) ∧ (1 ≤ m ∧ m ≤ 12) ∧ (1 ≤ d ∧ d ≤ 31) ∧ d ≤ daysInMonth y m) := by
  unfold _validate_date_components
  rw [hy, hm, hd]
  dsimp only
  split_ifs with h1 h2 h3 <;> simp_all

/-- C4 witness: 2024-02-29 is accepted (leap year). -/
theorem date_components_characterisation_w :
    _validate_date_components "2024".toList "2".toList "29".toList = true :=
  (date_components_characterisation _ _ _ 2024 2 29 (by decide) (by decide) (by decide)).mpr
    (by decide)

/-- Claim-language predicate for C5: the range-valid dates carried by
structured `article:published_time` meta tags anywhere in the text, in
textual order. -/
def publishTimeTagDates (content : Str) : List Str :=
  let cl := lowerStr (_get_content_without_yaml content)
  (scanAll metaM0 cl ++ scanAll metaM1 cl).filterMap (fun g =>
    if _validate_date_components g.1 g.2.1 g.2.2 then some (formatDate g.1 g.2.1 g.2.2)
    else none)

def c5Text : Str :=
  ("* 2024-06-01 10:00 report body property=\"article:published_time\" " ++
   "content=\"1999-01-01\" more property=\"article:published_time\" " ++
   "content=\"2025-05-20\" end").toList

set_option maxRecDepth 40000 in
/-- C5 counterexample: this text contains exactly one structured
publish-time meta tag with a range-valid date (2025-05-20), yet the
extractor returns 2024/06/01 — the first (invalid) publish-time match
shadows the valid one, the pattern is abandoned, and a plain-text cascade
date of higher confidence wins. -/
theorem meta_priority_cex :
    publishTimeTagDates c5Text = ["2025/05/20".toList]
    ∧ _extract_content_date_for_metadata c5Text 2025 = "2024/06/01".toList
    ∧ "2024/06/01".toList ≠ "2025/05/20".toList := by
  refine ⟨by decide, by with_unfolding_all decide, by decide⟩

/-- C5 as amended: whenever the priority pass itself produces a date — i.e.
some meta pattern's first textual match has range-valid components, patterns
taken in priority order — the extractor returns that date and the cascade is
never consulted, regardless of any other date in the text. -/
theorem meta_first_match_wins (content : Str) (nowYear : Nat) (d : Str)
    (h : metaPass (_get_content_without_yaml content) = some d) :
    _extract_content_date_for_metadata content nowYear = d := by
  simp [_extract_content_date_for_metadata, h]

/-- C5 amended witness: a publish-time meta date of 2025-05-20 wins over a
plain-text date elsewhere. -/
theorem meta_first_match_wins_w :
    _extract_content_date_for_metadata
      ("xx property=\"article:published_time\" content=\"2025-05-20\" yy 2024年6月1日 zz").toList
      2025 = "2025/05/20".toList :=
  meta_first_match_wins _ 2025 _ (by decide)

def c6Text : Str := "2025-05-20 08:30 外資報告全文內容說明".toList

/-- C6 counterexample: pattern 9 matches at position 0 (within the first 10%
of the text), yet the confidence is 5 (base) + 2 (priority) + 3/2 (recency)
= 17/2, without the claimed +2 positional bonus: the code looks up the
position of the joined groups "20250520", which do not occur in the text. -/
theorem positional_bonus_cex :
    (dpat9 c6Text).isSome = true
    ∧ firstOcc "2025-05-20 08:30".toList c6Text = some 0
    ∧ ((0:ℚ) < (c6Text.length : ℚ) * (1/10))
    ∧ _calculate_date_confidence 9 ("2025".toList, "05".toList, "20".toList) c6Text 2025 = 17/2
    ∧ ((17:ℚ)/2 ≠ 5 + 2 + 2 + 3/2 + 0) := by
  refine ⟨by decide, by decide, by with_unfolding_all decide,
    by with_unfolding_all decide, by norm_num⟩

/-- C6 as amended: the positional bonus is granted — +2.0 within the first
10% of the text, +1.0 within the first 30% — based on the first occurrence
of the concatenation of the captured groups (separators dropped), when that
concatenation occurs at all. -/
theorem positional_bonus_amended (i : Nat) (g : Str × Str × Str) (content : Str)
    (nowYear : Nat) (p : Nat) (hp : firstOcc (joinedGroups g) content = some p) :
    _calculate_date_confidence i g content nowYear =
      5 + patternPriorityBonus i
      + (if (p : ℚ) < (content.length : ℚ) * (1/10) then 2
         else if (p : ℚ) < (content.length : ℚ) * (3/10) then 1 else 0)
      + recencyBonus g nowYear + sourceBonus content := by
  unfold _calculate_date_confidence positionalBonus
  rw [hp]

/-- C6 amended witness: when the joined groups do occur in the first 10%,
the +2.0 bonus is present. -/
theorem positional_bonus_amended_w :
    _calculate_date_confidence 9 ("2025".toList, "05".toList, "20".toList)
      "20250520 法人預估報告內容文字".toList 2025 =
      5 + patternPriorityBonus 9
      + (if ((0:Nat) : ℚ) < (("20250520 法人預估報告內容文字".toList).length : ℚ) * (1/10) then 2
         else if ((0:Nat) : ℚ) < (("20250520 法人預估報告內容文字".toList).length : ℚ) * (3/10)
           then 1 else 0)
      + recencyBonus ("2025".toList, "05".toList, "20".toList) 2025
      + sourceBonus "20250520 法人預估報告內容文字".toList :=
  positional_bonus_amended 9 _ _ 2025 0 (by decide)

theorem bestCand_eq_none_iff (l : List DateCand) : bestCand l = none ↔ l = [] := by
  cases l with
  | nil => simp [bestCand]
  | cons a t =>
    cases hb : bestCand t <;> simp [bestCand, hb]

theorem insertionSort_head_bestCand (l : List DateCand) :
    (l.insertionSort (fun a b => b.confidence ≤ a.confidence)).head? = bestCand l := by
  induction l with
  | nil => rfl
  | cons a t ih =>
    rw [List.insertionSort, bestCand, ← ih]
    cases hs : t.insertionSort (fun a b => b.confidence ≤ a.confidence) with
    | nil => simp [List.orderedInsert]
    | cons b s =>
      simp only [List.orderedInsert, hs]
      split_ifs with h <;> simp [h]

theorem bestCand_cons (a : DateCand) (t : List DateCand) :
    bestCand (a :: t) =
      match bestCand t with
      | none => some a
      | some b => some (if b.confidence ≤ a.confidence then a else b) := rfl

theorem bestCand_spec : ∀ (l : List DateCand) (c : DateCand), bestCand l = some c →
    ∃ l1 l2, l = l1 ++ c :: l2 ∧ (∀ x ∈ l, x.confidence ≤ c.confidence)
      ∧ (∀ x ∈ l1, x.confidence < c.confidence) := by
  intro l
  induction l with
  | nil => intro c h; simp [bestCand] at h
  | cons a t ih =>
    intro c h
    rw [bestCand_cons] at h
    cases hb : bestCand t with
    | none =>
      rw [hb] at h
      have ht : t = [] := (bestCand_eq_none_iff t).mp hb
      subst ht
      obtain rfl : a = c := by injection h
      exact ⟨[], [], rfl, by simp, by simp⟩
    | some b =>
      rw [hb] at h
      dsimp only at h
      by_cases hba : b.confidence ≤ a.confidence
      · rw [if_pos hba] at h
        obtain rfl : a = c := by injection h
        obtain ⟨l1, l2, hsplit, hmax, _⟩ := ih b hb
        refine ⟨[], t, rfl, ?_, by simp⟩
        intro x hx
        rcases List.mem_cons.mp hx with rfl | hx
        · exact le_refl _
        · exact le_trans (hmax x hx) hba
      · rw [if_neg hba] at h
        obtain rfl : b = c := by injection h
        obtain ⟨l1, l2, hsplit, hmax, hlt⟩ := ih b hb
        refine ⟨a :: l1, l2, by rw [hsplit]; rfl, ?_, ?_⟩
        · intro x hx
          rcases List.mem_cons.mp hx with rfl | hx
          · exact le_of_lt (not_le.mp hba)
          · exact hmax x hx
        · intro x hx
          rcases List.mem_cons.mp hx with rfl | hx
          · exact not_le.mp hba
          · exact hlt x hx

/-- C7.  When the priority pass finds nothing, the extractor returns the
empty string if no cascade candidate validates, and otherwise the date of a
candidate of maximal confidence that is earliest in discovery order (every
earlier candidate has strictly smaller confidence). -/
theorem cascade_selection (content : Str) (nowYear : Nat)
    (hm : metaPass (_get_content_without_yaml content) = none) :
    (dateCands (_get_content_without_yaml content) nowYear = [] →
      _extract_content_date_for_metadata content nowYear = [])
    ∧ (dateCands (_get_content_without_yaml content) nowYear ≠ [] →
      ∃ l1 best l2,
        dateCands (_get_content_without_yaml content) nowYear = l1 ++ best :: l2
        ∧ _extract_content_date_for_metadata content nowYear = best.date
        ∧ (∀ x ∈ dateCands (_get_content_without_yaml content) nowYear,
            x.confidence ≤ best.confidence)
        ∧ (∀ x ∈ l1, x.confidence < best.confidence)) := by
  constructor
  · intro he
    simp [_extract_content_date_for_metadata, hm, he]
  · intro hne
    obtain ⟨c, hc⟩ : ∃ c,
        bestCand (dateCands (_get_content_without_yaml content) nowYear) = some c := by
      cases hbc : bestCand (dateCands (_get_content_without_yaml content) nowYear) with
      | none => exact absurd ((bestCand_eq_none_iff _).mp hbc) hne
      | some c => exact ⟨c, rfl⟩
    obtain ⟨l1, l2, hsplit, hmax, hlt⟩ := bestCand_spec _ _ hc
    refine ⟨l1, c, l2, hsplit, ?_, hmax, hlt⟩
    have hie : (dateCands (_get_content_without_yaml content) nowYear).isEmpty = false := by
      simpa [List.isEmpty_iff] using hne
    simp [_extract_content_date_for_metadata, hm, hie, insertionSort_head_bestCand, hc]

/-- C7 witness: a text with no date at all yields the empty string. -/
theorem cascade_selection_w :
    _extract_content_date_for_metadata "hello".toList 2025 = [] :=
  (cascade_selection _ 2025 (by decide)).1 (by decide)

/-! ### SearchOrchestrator (`search_comprehensive`)

The external collaborators are modelled as functions: `searchFn` stands for
`api_manager.search` (a pattern whose API call raises is caught and skipped,
i.e. contributes no items), and `proc` for
`_process_search_result_with_md_date` (fetch + validate + score; `none` for
a missing url/title, failed fetch, or a caught per-result exception — a
returned dictionary is always truthy).  `qual` reads `quality_score`.  The
rate-limiting sleep has no effect on the result.  `count='all'`
(`float('inf')`) never triggers the count checks; the claim is about finite
targets, modelled as `target : Nat`. -/

/-- The qualifying results of a hit list, in discovery order. -/
def qualHits (proc : ι → Option ρ) (qual : ρ → ℚ) (minQ : ℚ) (hits : List ι) : List ρ :=
  hits.filterMap (fun h =>
    match proc h with
    | some r => if minQ ≤ qual r then some r else none
    | none => none)

/-- The inner hit loop: append each qualifying result, breaking as soon as
the accumulated count reaches the target (checked after each append). -/
def processHits (proc : ι → Option ρ) (qual : ρ → ℚ) (minQ : ℚ) (target : Nat)
    (acc : List ρ) : List ι → List ρ
  | [] => acc
  | h :: t =>
    match proc h with
    | some r =>
      if minQ ≤ qual r then
        if target ≤ (acc ++ [r]).length then acc ++ [r]
        else processHits proc qual minQ target (acc ++ [r]) t
      else processHits proc qual minQ target acc t
    | none => processHits proc qual minQ target acc t

/-- The pattern loop of one category, with the count check after each
pattern. -/
def processPatterns (searchFn : Str → List ι) (proc : ι → Option ρ) (qual : ρ → ℚ)
    (minQ : ℚ) (target : Nat) (acc : List ρ) : List Str → List ρ
  | [] => acc
  | p :: ps =>
    let acc2 := processHits proc qual minQ target acc (searchFn p)
    if target ≤ acc2.length then acc2
    else processPatterns searchFn proc qual minQ target acc2 ps

/-- The category loop, with the count check between categories. -/
def processCategories (searchFn : Str → List ι) (proc : ι → Option ρ) (qual : ρ → ℚ)
    (minQ : ℚ) (target : Nat) (acc : List ρ) : List (List Str) → List ρ
  | [] => acc
  | c :: cs =>
    let acc2 := processPatterns searchFn proc qual minQ target acc c
    if target ≤ acc2.length then acc2
    else processCategories searchFn proc qual minQ target acc2 cs

/-- `search_comprehensive` for a finite target: the triple loop followed by
the final `results[:int(target_count)]` slice. -/
def search_comprehensive (searchFn : Str → List ι) (proc : ι → Option ρ) (qual : ρ → ℚ)
    (minQ : ℚ) (target : Nat) (cats : List (List Str)) : List ρ :=
  (processCategories searchFn proc qual minQ target [] cats).take target

/-- All qualifying results of the full pattern sweep with no early exit, in
discovery order. -/
def allQualifying (searchFn : Str → List ι) (proc : ι → Option ρ) (qual : ρ → ℚ)
    (minQ : ℚ) (cats : List (List Str)) : List ρ :=
  (cats.map (fun ps => (ps.map (fun p => qualHits proc qual minQ (searchFn p))).flatten)).flatten

theorem processHits_eq (proc : ι → Option ρ) (qual : ρ → ℚ) (minQ : ℚ) (target : Nat) :
    ∀ (hits : List ι) (acc : List ρ), acc.length < target →
      processHits proc qual minQ target acc hits
        = (acc ++ qualHits proc qual minQ hits).take target := by
  intro hits
  induction hits with
  | nil =>
    intro acc hlt
    simp [processHits, qualHits, List.take_of_length_le (le_of_lt hlt)]
  | cons h t ih =>
    intro acc hlt
    rw [processHits, qualHits, List.filterMap_cons]
    cases hp : proc h with
    | none =>
      simpa [qualHits] using ih acc hlt
    | some r =>
      dsimp only
      by_cases hq : minQ ≤ qual r
      · rw [if_pos hq, if_pos hq]
        dsimp only
        by_cases hfull : target ≤ (acc ++ [r]).length
        · rw [if_pos hfull]
          have htarget : target = acc.length + 1 := by
            simp at hfull; omega
          rw [htarget, List.take_append_eq_append_take]
          simp
        · rw [if_neg hfull]
          have hlt2 : (acc ++ [r]).length < target := by
            simp at hfull ⊢; omega
          rw [ih _ hlt2, List.append_assoc]
          rfl
      · rw [if_neg hq, if_neg hq]
        dsimp only
        simpa [qualHits] using ih acc hlt

theorem processPatterns_eq (searchFn : Str → List ι) (proc : ι → Option ρ) (qual : ρ → ℚ)
    (minQ : ℚ) (target : Nat) :
    ∀ (ps : List Str) (acc : List ρ), acc.length < target →
      processPatterns searchFn proc qual minQ target acc ps
        = (acc ++ (ps.map (fun p => qualHits proc qual minQ (searchFn p))).flatten).take target := by
  intro ps
  induction ps with
  | nil =>
    intro acc hlt
    simp [processPatterns, List.take_of_length_le (le_of_lt hlt)]
  | cons p ps ih =>
    intro acc hlt
    rw [processPatterns]
    have hacc2 := processHits_eq proc qual minQ target (searchFn p) acc hlt
    by_cases hfull : target ≤ (processHits proc qual minQ target acc (searchFn p)).length
    · rw [if_pos hfull]
      rw [hacc2] at hfull ⊢
      have hlen : target ≤ (acc ++ qualHits proc qual minQ (searchFn p)).length := by
        rw [List.length_take] at hfull
        omega
      rw [List.map_cons, List.flatten_cons, ← List.append_assoc,
        List.take_append_of_le_length hlen]
    · rw [if_neg hfull]
      rw [hacc2] at hfull ⊢
      have hlen : (acc ++ qualHits proc qual minQ (searchFn p)).length < target := by
        rw [List.length_take] at hfull
        omega
      rw [List.take_of_length_le (le_of_lt hlen)]
      rw [ih _ hlen, List.map_cons, List.flatten_cons, List.append_assoc]

theorem processCategories_eq (searchFn : Str → List ι) (proc : ι → Option ρ) (qual : ρ → ℚ)
    (minQ : ℚ) (target : Nat) :
    ∀ (cats : List (List Str)) (acc : List ρ), acc.length < target →
      processCategories searchFn proc qual minQ target acc cats
        = (acc ++ (cats.map (fun ps =>
            (ps.map (fun p => qualHits proc qual minQ (searchFn p))).flatten)).flatten).take
            target := by
  intro cats
  induction cats with
  | nil =>
    intro acc hlt
    simp [processCategories, List.take_of_length_le (le_of_lt hlt)]
  | cons c cs ih =>
    intro acc hlt
    rw [processCategories]
    have hacc2 := processPatterns_eq searchFn proc qual minQ target c acc hlt
    by_cases hfull : target ≤ (processPatterns searchFn proc qual minQ target acc c).length
    · rw [if_pos hfull]
      rw [hacc2] at hfull ⊢
      have hlen : target ≤
          (acc ++ (c.map (fun p => qualHits proc qual minQ (searchFn p))).flatten).length := by
        rw [List.length_take] at hfull
        omega
      rw [List.map_cons, List.flatten_cons, ← List.append_assoc,
        List.take_append_of_le_length hlen]
    · rw [if_neg hfull]
      rw [hacc2] at hfull ⊢
      have hlen : (acc ++ (c.map (fun p =>
          qualHits proc qual minQ (searchFn p))).flatten).length < target := by
        rw [List.length_take] at hfull
        omega
      rw [List.take_of_length_le (le_of_lt hlen)]
      rw [ih _ hlen, List.map_cons, List.flatten_cons, List.append_assoc]

/-- C8.  For every finite target, the search returns exactly the first
`target` qualifying results of the full sweep in discovery order (so it
stops contributing results as soon as the count reaches the target, the
check being placed after each hit, pattern and category), and never more
than `target` results. -/
theorem search_comprehensive_take (searchFn : Str → List ι) (proc : ι → Option ρ)
    (qual : ρ → ℚ) (minQ : ℚ) (target : Nat) (cats : List (List Str)) :
    search_comprehensive searchFn proc qual minQ target cats
      = (allQualifying searchFn proc qual minQ cats).take target
    ∧ (search_comprehensive searchFn proc qual minQ target cats).length ≤ target := by
  have hmain : search_comprehensive searchFn proc qual minQ target cats
      = (allQualifying searchFn proc qual minQ cats).take target := by
    rcases Nat.eq_zero_or_pos target with h0 | hpos
    · subst h0
      simp [search_comprehensive]
    · unfold search_comprehensive allQualifying
      rw [processCategories_eq searchFn proc qual minQ target cats [] (by simpa using hpos)]
      rw [List.take_take]
      simp
  refine ⟨hmain, ?_⟩
  rw [hmain, List.length_take]
  omega

/-! ### Document emission (`generate_md_file_with_md_date`)

The content hash is `hashlib.md5(content_for_hash.encode('utf-8')).hexdigest()[:8]`.
MD5 (RFC 1321) is embedded below over byte lists, with 32-bit words as `Nat`
reduced mod 2^32. -/

/-- UTF-8 encoding of one character. -/
def charUtf8 (c : Char) : List Nat :=
  let n := c.toNat
  if n < 128 then [n]
  else if n < 2048 then [192 + n / 64, 128 + n % 64]
  else if n < 65536 then [224 + n / 4096, 128 + (n / 64) % 64, 128 + n % 64]
  else [240 + n / 262144, 128 + (n / 4096) % 64, 128 + (n / 64) % 64, 128 + n % 64]

/-- `str.encode('utf-8')`. -/
def utf8Encode (s : Str) : List Nat := (s.map charUtf8).flatten

def w32 (x : Nat) : Nat := x % 4294967296

def rotl32 (x n : Nat) : Nat := w32 ((x <<< n) + (x >>> (32 - n)))

def md5S : List Nat :=
  [7, 12, 17, 22, 7, 12, 17, 22, 7, 12, 17, 22, 7, 12, 17, 22,
   5, 9, 14, 20, 5, 9, 14, 20, 5, 9, 14, 20, 5, 9, 14, 20,
   4, 11, 16, 23, 4, 11, 16, 23, 4, 11, 16, 23, 4, 11, 16, 23,
   6, 10, 15, 21, 6, 10, 15, 21, 6, 10, 15, 21, 6, 10, 15, 21]

/-- `K[i] = floor(abs(sin(i+1)) * 2^32)`. -/
def md5K : List Nat :=
  [3614090360, 3905402710, 606105819, 3250441966,
   4118548399, 1200080426, 2821735955, 4249261313,
   1770035416, 2336552879, 4294925233, 2304563134,
   1804603682, 4254626195, 2792965006, 1236535329,
   4129170786, 3225465664, 643717713, 3921069994,
   3593408605, 38016083, 3634488961, 3889429448,
   568446438, 3275163606, 4107603335, 1163531501,
   2850285829, 4243563512, 1735328473, 2368359562,
   4294588738, 2272392833, 1839030562, 4259657740,
   2763975236, 1272893353, 4139469664, 3200236656,
   681279174, 3936430074, 3572445317, 76029189,
   3654602809, 3873151461, 530742520, 3299628645,
   4096336452, 1126891415, 2878612391, 4237533241,
   1700485571, 2399980690, 4293915773, 2240044497,
   1873313359, 4264355552, 2734768916, 1309151649,
   4149444226, 3174756917, 718787259, 3951481745]

/-- MD5 padding: `0x80`, zeros to 56 mod 64, then the bit length as eight
little-endian bytes. -/
def md5Pad (msg : List Nat) : List Nat :=
  let bitLen := msg.length * 8
  let z := (120 - (msg.length + 1) % 64) % 64
  msg ++ [128] ++ List.replicate z 0 ++
    (List.range 8).map (fun i => (bitLen >>> (8 * i)) % 256)

/-- A little-endian 32-bit word from four bytes. -/
def leWord (bs : List Nat) : Nat :=
  match bs with
  | [a, b, c, d] => a + 256 * b + 65536 * c + 16777216 * d
  | _ => 0

def chunkWords (chunk : List Nat) : List Nat :=
  (List.range 16).map (fun j => leWord ((chunk.drop (4 * j)).take 4))

/-- One of the 64 MD5 rounds. -/
def md5Step (M : List Nat) (st : Nat × Nat × Nat × Nat) (i : Nat) : Nat × Nat × Nat × Nat :=
  match st with
  | (a, b, c, d) =>
    let fg : Nat × Nat :=
      if i < 16 then ((b &&& c) ||| ((b ^^^ 4294967295) &&& d), i)
      else if i < 32 then ((d &&& b) ||| ((d ^^^ 4294967295) &&& c), (5 * i + 1) % 16)
      else if i < 48 then (b ^^^ c ^^^ d, (3 * i + 5) % 16)
      else (c ^^^ (b ||| (d ^^^ 4294967295)), (7 * i) % 16)
    let f2 := w32 (fg.1 + a + md5K.getD i 0 + M.getD fg.2 0)
    (d, w32 (b + rotl32 f2 (md5S.getD i 0)), b, c)

/-- Process one 64-byte chunk. -/
def md5Chunk (st : Nat × Nat × Nat × Nat) (chunk : List Nat) : Nat × Nat × Nat × Nat :=
  match st with
  | (a0, b0, c0, d0) =>
    match (List.range 64).foldl (md5Step (chunkWords chunk)) (a0, b0, c0, d0) with
    | (a, b, c, d) => (w32 (a0 + a), w32 (b0 + b), w32 (c0 + c), w32 (d0 + d))

def chunks64F : Nat → List Nat → List (List Nat)
  | 0, _ => []
  | _ + 1, [] => []
  | fuel + 1, l => l.take 64 :: chunks64F fuel (l.drop 64)

def chunks64 (l : List Nat) : List (List Nat) := chunks64F (l.length + 1) l

def wordLEBytes (x : Nat) : List Nat :=
  [x % 256, (x >>> 8) % 256, (x >>> 16) % 256, (x >>> 24) % 256]

/-- The sixteen digest bytes of MD5. -/
def md5Bytes (msg : List Nat) : List Nat :=
  match (chunks64 (md5Pad msg)).foldl md5Chunk
      (1732584193, 4023233417, 2562383102, 271733878) with
  | (a, b, c, d) => wordLEBytes a ++ wordLEBytes b ++ wordLEBytes c ++ wordLEBytes d

def hexDigit (n : Nat) : Char := if n < 10 then Char.ofNat (48 + n) else Char.ofNat (87 + n)

/-- `hexdigest()`: 32 lowercase hex characters. -/
def md5HexStr (msg : List Nat) : Str :=
  ((md5Bytes msg).map (fun b => [hexDigit (b / 16), hexDigit (b % 16)])).flatten

/-- The filename computed by `generate_md_file_with_md_date`:
`{stock_code}_{company}_factset_{hash8}.md` where `hash8` is the first eight
hex characters of the MD5 of content+url+title+md_date. -/
def generate_md_filename (content url title md_date stock_code company : Str) : Str :=
  let contentHash := (md5HexStr (utf8Encode (content ++ url ++ title ++ md_date))).take 8
  stock_code ++ "_".toList ++ company ++ "_factset_".toList ++ contentHash ++ ".md".toList

def c9Content : Str := "factset eps forecast 270".toList

set_option maxRecDepth 100000 in
/-- C9 counterexample: two results identical in content, url, title, company
and stock code whose md_date values differ — 2025/07/07 versus 2027/01/26 —
receive the *same* filename: the two MD5 digests agree on their first eight
hex characters (5875b62b), and only those enter the filename. -/
theorem md_date_filename_cex :
    generate_md_filename c9Content [] [] "2025/07/07".toList "2330".toList "台積電".toList
      = generate_md_filename c9Content [] [] "2027/01/26".toList "2330".toList "台積電".toList
    ∧ ("2025/07/07".toList : Str) ≠ "2027/01/26".toList := by
  refine ⟨by decide, by decide⟩

/-- C9 as amended: two otherwise-identical results with distinct md_date
values receive distinct filenames exactly when the truncated (8-hex-char)
MD5 digests of content+url+title+md_date differ; the truncation can collide,
in which case the second `save_md_file` call finds the file existing and
skips the write. -/
theorem md_date_filename_amended (content url title d1 d2 code company : Str)
    (hh : (md5HexStr (utf8Encode (content ++ url ++ title ++ d1))).take 8
        ≠ (md5HexStr (utf8Encode (content ++ url ++ title ++ d2))).take 8) :
    generate_md_filename content url title d1 code company
      ≠ generate_md_filename content url title d2 code company := by
  unfold generate_md_filename
  intro he
  apply hh
  dsimp only at he
  exact List.append_cancel_left (List.append_cancel_right he)

set_option maxRecDepth 100000 in
/-- C9 amended witness: distinct dates with distinct truncated digests give
distinct filenames. -/
theorem md_date_filename_amended_w :
    generate_md_filename c9Content [] [] "2025/07/07".toList "2330".toList "台積電".toList
      ≠ generate_md_filename c9Content [] [] "2025/07/08".toList "2330".toList "台積電".toList :=
  md_date_filename_amended _ _ _ _ _ _ _ (by decide)
